import Mathlib

/-!
Shallow embedding of the RR-graph drawing core of `vpr/SRC/draw/draw.cpp`
(VTR): channel geometry, hit testing, highlight propagation, trace
flattening, route-tree path search and switch lookup, together with
theorems settling the specification claims about those routines.

Continuous draw-space coordinates (C++ `float`) are modelled as `ℚ`;
grid/track indices (C++ `int`) as `ℤ` or `ℕ` where the source only ever
holds non-negative values (pin numbers, node indices).
-/

namespace VprDraw

/-- Type of an RR node (`t_rr_type`). -/
inductive RRType where
  | SOURCE | SINK | IPIN | OPIN | CHANX | CHANY
deriving DecidableEq, Repr

/-- Direction of a channel wire (`enum e_direction`); `BI_DIRECTION` for
bidirectional wires. -/
inductive Direction where
  | INC_DIRECTION | DEC_DIRECTION | BI_DIRECTION
deriving DecidableEq, Repr

/-- Drawing colors used by the highlight machinery (`t_color` constants).
`DRIVES_IT` stands for the fan-out highlight constant `DRIVES_IT_COLOR`. -/
inductive Color where
  | BLACK | MAGENTA | WHITE | BLUE | RED | GREEN | DRIVES_IT
deriving DecidableEq, Repr

/-- Source: `#define DEFAULT_RR_NODE_COLOR BLACK` (draw.cpp line 55). -/
def DEFAULT_RR_NODE_COLOR : Color := Color.BLACK

/-- Modelled from the spec: `DRIVES_IT_COLOR` is defined in a header that is
not part of the sources; the spec says fan-out nodes are highlighted in red,
and here it is kept as its own distinguished color constant. -/
def DRIVES_IT_COLOR : Color := Color.DRIVES_IT

/-- Sentinel for "no RR node" (`OPEN`, i.e. -1, from the VPR headers). -/
def OPEN : Int := -1

/-- One RR node, as read by the drawing code: type, geometric extent,
track/pin index (`ptc_num`), direction, and the parallel edge/switch
arrays (`edges`, `switches`). -/
structure RRNode where
  type : RRType
  xlow : Int
  xhigh : Int
  ylow : Int
  yhigh : Int
  ptc : Nat
  direction : Direction
  edges : List Nat
  switches : List Nat

/-- One grid tile together with the fields of its block type used by the
pin-drawing code: `width_offset`, `height_offset`, the block type's
`num_pins` and `capacity`, and the pin-placement table
`pinloc[width_offset][height_offset][side][pin]`. -/
structure GridTile where
  width_offset : Int
  height_offset : Int
  num_pins : Nat
  capacity : Nat
  pinloc : Int → Int → Nat → Nat → Bool

/-- The read-only inputs of the drawing routines: the RR graph
(`num_rr_nodes`, `rr_node`), the device grid, and the draw-coordinate
state (`tile_x`, `tile_y`, tile width, pin size). -/
structure DrawContext where
  numNodes : Nat
  node : Nat → RRNode
  grid : Int → Int → GridTile
  tile_x : Int → ℚ
  tile_y : Int → ℚ
  tile_width : ℚ
  pin_size : ℚ

/-- A `t_bound_box`: left/right/bottom/top draw coordinates. -/
structure TBoundBox where
  left : ℚ
  right : ℚ
  bottom : ℚ
  top : ℚ
deriving DecidableEq, Repr

/-- Embedding of `draw_get_rr_chan_bbox` (draw.cpp lines 1442-1477):
boundary coordinates of a channel wire segment; all-zero box for
non-channel node types. -/
def draw_get_rr_chan_bbox (ctx : DrawContext) (inode : Nat) : TBoundBox :=
  let n := ctx.node inode
  match n.type with
  | RRType.CHANX =>
      { left := ctx.tile_x n.xlow
        right := ctx.tile_x n.xhigh + ctx.tile_width
        bottom := ctx.tile_y n.ylow + ctx.tile_width + (1 + (n.ptc : ℚ))
        top := ctx.tile_y n.ylow + ctx.tile_width + (1 + (n.ptc : ℚ)) }
  | RRType.CHANY =>
      { left := ctx.tile_x n.xlow + ctx.tile_width + (1 + (n.ptc : ℚ))
        right := ctx.tile_x n.xlow + ctx.tile_width + (1 + (n.ptc : ℚ))
        bottom := ctx.tile_y n.ylow
        top := ctx.tile_y n.yhigh + ctx.tile_width }
  | _ => { left := 0, right := 0, bottom := 0, top := 0 }

/-- Claim C2: the channel bounding-box function returns, for a CHANX node,
left `tile_x[x_low]`, right `tile_x[x_high] + tile_width`, and
bottom = top = `tile_y[y_low] + tile_width + 1 + track_index`; for a CHANY
node the symmetric vertical construction with
left = right = `tile_x[x_low] + tile_width + 1 + track_index`,
bottom `tile_y[y_low]`, top `tile_y[y_high] + tile_width`; and for any
other node type the all-zero rectangle. -/
theorem chan_bbox_formulas (ctx : DrawContext) (inode : Nat) :
    ((ctx.node inode).type = RRType.CHANX →
      draw_get_rr_chan_bbox ctx inode =
        { left := ctx.tile_x (ctx.node inode).xlow
          right := ctx.tile_x (ctx.node inode).xhigh + ctx.tile_width
          bottom := ctx.tile_y (ctx.node inode).ylow + ctx.tile_width + 1
                      + ((ctx.node inode).ptc : ℚ)
          top := ctx.tile_y (ctx.node inode).ylow + ctx.tile_width + 1
                      + ((ctx.node inode).ptc : ℚ) }) ∧
    ((ctx.node inode).type = RRType.CHANY →
      draw_get_rr_chan_bbox ctx inode =
        { left := ctx.tile_x (ctx.node inode).xlow + ctx.tile_width + 1
                      + ((ctx.node inode).ptc : ℚ)
          right := ctx.tile_x (ctx.node inode).xlow + ctx.tile_width + 1
                      + ((ctx.node inode).ptc : ℚ)
          bottom := ctx.tile_y (ctx.node inode).ylow
          top := ctx.tile_y (ctx.node inode).yhigh + ctx.tile_width }) ∧
    ((ctx.node inode).type ≠ RRType.CHANX →
     (ctx.node inode).type ≠ RRType.CHANY →
      draw_get_rr_chan_bbox ctx inode =
        { left := 0, right := 0, bottom := 0, top := 0 }) := by
  refine ⟨?_, ?_, ?_⟩ <;> intro h
  · simp only [draw_get_rr_chan_bbox, h]
    ring_nf
  · simp only [draw_get_rr_chan_bbox, h]
    ring_nf
  · intro h2
    cases ht : (ctx.node inode).type <;>
      simp only [draw_get_rr_chan_bbox, ht] <;> first | rfl | exact absurd ht (by simp_all)

/-- Witness for `chan_bbox_formulas` at a concrete context. -/
theorem chan_bbox_formulas_witness :
    let ctx : DrawContext :=
      { numNodes := 1
        node := fun _ =>
          { type := RRType.CHANX, xlow := 1, xhigh := 2, ylow := 1, yhigh := 1
            ptc := 3, direction := Direction.BI_DIRECTION, edges := [], switches := [] }
        grid := fun _ _ =>
          { width_offset := 0, height_offset := 0, num_pins := 1, capacity := 1
            pinloc := fun _ _ _ _ => false }
        tile_x := fun i => (i : ℚ)
        tile_y := fun j => (j : ℚ)
        tile_width := 1
        pin_size := 1/10 }
    draw_get_rr_chan_bbox ctx 0 =
      { left := ctx.tile_x 1, right := ctx.tile_x 2 + ctx.tile_width
        bottom := ctx.tile_y 1 + ctx.tile_width + 1 + 3
        top := ctx.tile_y 1 + ctx.tile_width + 1 + 3 } := by
  intro ctx
  exact (chan_bbox_formulas ctx 0).1 rfl

/-- Per-node highlight state: `draw_rr_node[i].color` and
`draw_rr_node[i].node_highlighted`. -/
structure HighlightState where
  color : Nat → Color
  highlighted : Nat → Bool

theorem HighlightState.ext {s t : HighlightState}
    (hc : ∀ j, s.color j = t.color j)
    (hh : ∀ j, s.highlighted j = t.highlighted j) : s = t := by
  cases s; cases t
  simp only [HighlightState.mk.injEq]
  exact ⟨funext hc, funext hh⟩

/-- Assignment `draw_rr_node[i].color = c; draw_rr_node[i].node_highlighted = b`. -/
def setNode (s : HighlightState) (i : Nat) (c : Color) (b : Bool) : HighlightState :=
  { color := fun j => if j = i then c else s.color j
    highlighted := fun j => if j = i then b else s.highlighted j }

/-- Body of the fan-out loop of `draw_highlight_fan_in_fan_out`
(draw.cpp lines 1903-1916): recolors one fan-out target `m` of `hit`,
depending on the current color of `hit`. -/
def fanoutStep (hit : Nat) (s : HighlightState) (m : Nat) : HighlightState :=
  if s.color hit = Color.MAGENTA then setNode s m DRIVES_IT_COLOR true
  else if s.color hit = Color.WHITE then setNode s m DEFAULT_RR_NODE_COLOR false
  else s

/-- Body of the inner fan-in scan loop of `draw_highlight_fan_in_fan_out`
(draw.cpp lines 1920-1933): if edge target `fanout_node` of node `inode`
is `hit`, recolor `inode`. -/
def faninInnerStep (hit inode : Nat) (s : HighlightState) (fanout_node : Nat) :
    HighlightState :=
  if fanout_node = hit then
    if s.color hit = Color.MAGENTA then setNode s inode Color.BLUE true
    else if s.color hit = Color.WHITE then setNode s inode DEFAULT_RR_NODE_COLOR false
    else s
  else s

/-- Embedding of `draw_highlight_fan_in_fan_out` (draw.cpp lines 1897-1936):
first the fan-out loop over `rr_node[hit].edges`, then the full scan over
all nodes' edge lists looking for edges into `hit`. -/
def draw_highlight_fan_in_fan_out (ctx : DrawContext) (hit : Nat)
    (s : HighlightState) : HighlightState :=
  let s1 := ((ctx.node hit).edges).foldl (fanoutStep hit) s
  (List.range ctx.numNodes).foldl
    (fun t inode => ((ctx.node inode).edges).foldl (faninInnerStep hit inode) t) s1

/-- The `draw_rr_toggle` display mode (only equality with `DRAW_NO_RR`
matters to the modelled code). -/
inductive RRToggle where
  | DRAW_NO_RR | DRAW_NODES_RR | DRAW_ALL_RR
deriving DecidableEq, Repr

/-- Embedding of the state-changing part of `highlight_rr_nodes`
(draw.cpp lines 2014-2065), with the hit node (result of
`draw_check_rr_node_hit`) passed in: early return when the RR graph is
hidden and nets are not shown; otherwise the select/deselect transition
on the hit node, followed by fan-in/fan-out propagation only when the RR
graph is displayed. -/
def highlight_rr_nodes_click (ctx : DrawContext) (toggle : RRToggle)
    (show_nets : Bool) (hit : Nat) (s : HighlightState) : HighlightState :=
  if toggle = RRToggle.DRAW_NO_RR ∧ show_nets = false then s
  else
    let s1 :=
      if s.color hit ≠ Color.MAGENTA then setNode s hit Color.MAGENTA true
      else setNode s hit Color.WHITE false
    if toggle ≠ RRToggle.DRAW_NO_RR then draw_highlight_fan_in_fan_out ctx hit s1
    else s1

theorem setNode_color_same (s : HighlightState) (i : Nat) (c : Color) (b : Bool) :
    (setNode s i c b).color i = c := by
  simp [setNode]

theorem setNode_color_other (s : HighlightState) {i j : Nat} (c : Color) (b : Bool)
    (h : j ≠ i) : (setNode s i c b).color j = s.color j := by
  simp [setNode, h]

theorem setNode_highlighted_same (s : HighlightState) (i : Nat) (c : Color) (b : Bool) :
    (setNode s i c b).highlighted i = b := by
  simp [setNode]

theorem setNode_highlighted_other (s : HighlightState) {i j : Nat} (c : Color) (b : Bool)
    (h : j ≠ i) : (setNode s i c b).highlighted j = s.highlighted j := by
  simp [setNode, h]

theorem setNode_idem (s : HighlightState) (i : Nat) (c : Color) (b : Bool) :
    setNode (setNode s i c b) i c b = setNode s i c b := by
  apply HighlightState.ext <;> intro j <;> by_cases h : j = i <;> simp [setNode, h]

/-- Closed form of the fan-out loop when the hit node is currently MAGENTA
(selected): every edge target is recolored to the fan-out color and marked
highlighted. -/
theorem fanout_fold_magenta (hit : Nat) (l : List Nat) :
    ∀ s : HighlightState, hit ∉ l → s.color hit = Color.MAGENTA →
      l.foldl (fanoutStep hit) s =
        { color := fun j => if j ∈ l then DRIVES_IT_COLOR else s.color j
          highlighted := fun j => if j ∈ l then true else s.highlighted j } := by
  induction l with
  | nil =>
      intro s _ _
      apply HighlightState.ext <;> intro j <;> simp
  | cons m rest ih =>
      intro s h hM
      have hm : hit ≠ m := fun he => h (he ▸ List.mem_cons_self m rest)
      have hrest : hit ∉ rest := fun he => h (List.mem_cons_of_mem m he)
      have hstep : fanoutStep hit s m = setNode s m DRIVES_IT_COLOR true := by
        simp [fanoutStep, hM]
      have hM' : (setNode s m DRIVES_IT_COLOR true).color hit = Color.MAGENTA := by
        rw [setNode_color_other s _ _ hm]; exact hM
      rw [List.foldl_cons, hstep, ih _ hrest hM']
      apply HighlightState.ext <;> intro j <;>
        by_cases hjr : j ∈ rest <;> by_cases hjm : j = m <;>
        simp [setNode, hjr, hjm]

/-- Closed form of the fan-out loop when the hit node is currently WHITE
(de-selected): every edge target is reset to the default color and
un-highlighted. -/
theorem fanout_fold_white (hit : Nat) (l : List Nat) :
    ∀ s : HighlightState, hit ∉ l → s.color hit = Color.WHITE →
      l.foldl (fanoutStep hit) s =
        { color := fun j => if j ∈ l then DEFAULT_RR_NODE_COLOR else s.color j
          highlighted := fun j => if j ∈ l then false else s.highlighted j } := by
  induction l with
  | nil =>
      intro s _ _
      apply HighlightState.ext <;> intro j <;> simp
  | cons m rest ih =>
      intro s h hW
      have hm : hit ≠ m := fun he => h (he ▸ List.mem_cons_self m rest)
      have hrest : hit ∉ rest := fun he => h (List.mem_cons_of_mem m he)
      have hstep : fanoutStep hit s m = setNode s m DEFAULT_RR_NODE_COLOR false := by
        simp [fanoutStep, hW, DEFAULT_RR_NODE_COLOR, DRIVES_IT_COLOR]
      have hW' : (setNode s m DEFAULT_RR_NODE_COLOR false).color hit = Color.WHITE := by
        rw [setNode_color_other s _ _ hm]; exact hW
      rw [List.foldl_cons, hstep, ih _ hrest hW']
      apply HighlightState.ext <;> intro j <;>
        by_cases hjr : j ∈ rest <;> by_cases hjm : j = m <;>
        simp [setNode, hjr, hjm]

/-- Closed form of the inner fan-in scan loop over one node's edge list,
hit node currently MAGENTA. -/
theorem fanin_inner_fold_magenta (hit inode : Nat) (l : List Nat) :
    ∀ s : HighlightState, (inode = hit → hit ∉ l) → s.color hit = Color.MAGENTA →
      l.foldl (faninInnerStep hit inode) s =
        if hit ∈ l then setNode s inode Color.BLUE true else s := by
  induction l with
  | nil => intro s _ _; simp
  | cons e rest ih =>
      intro s hcond hM
      by_cases he : e = hit
      · subst he
        have hinode : inode ≠ e := by
          intro h; exact (hcond h) (List.mem_cons_self e rest)
        have hstep : faninInnerStep e inode s e = setNode s inode Color.BLUE true := by
          simp [faninInnerStep, hM]
        have hM' : (setNode s inode Color.BLUE true).color e = Color.MAGENTA := by
          rw [setNode_color_other s _ _ (Ne.symm hinode)]; exact hM
        rw [List.foldl_cons, hstep,
            ih _ (fun h => absurd h hinode) hM']
        by_cases hr : e ∈ rest <;> simp [hr, setNode_idem]
      · have hstep : faninInnerStep hit inode s e = s := by
          simp [faninInnerStep, he]
        have hme : ¬ hit = e := fun h => he h.symm
        rw [List.foldl_cons, hstep,
            ih _ (fun h => fun hm => (hcond h) (List.mem_cons_of_mem e hm)) hM]
        by_cases hr : hit ∈ rest <;> simp [List.mem_cons, hr, hme]

/-- Closed form of the inner fan-in scan loop over one node's edge list,
hit node currently WHITE. -/
theorem fanin_inner_fold_white (hit inode : Nat) (l : List Nat) :
    ∀ s : HighlightState, (inode = hit → hit ∉ l) → s.color hit = Color.WHITE →
      l.foldl (faninInnerStep hit inode) s =
        if hit ∈ l then setNode s inode DEFAULT_RR_NODE_COLOR false else s := by
  induction l with
  | nil => intro s _ _; simp
  | cons e rest ih =>
      intro s hcond hW
      by_cases he : e = hit
      · subst he
        have hinode : inode ≠ e := by
          intro h; exact (hcond h) (List.mem_cons_self e rest)
        have hstep : faninInnerStep e inode s e =
            setNode s inode DEFAULT_RR_NODE_COLOR false := by
          simp [faninInnerStep, hW, DEFAULT_RR_NODE_COLOR]
        have hW' : (setNode s inode DEFAULT_RR_NODE_COLOR false).color e = Color.WHITE := by
          rw [setNode_color_other s _ _ (Ne.symm hinode)]; exact hW
        rw [List.foldl_cons, hstep,
            ih _ (fun h => absurd h hinode) hW']
        by_cases hr : e ∈ rest <;> simp [hr, setNode_idem]
      · have hstep : faninInnerStep hit inode s e = s := by
          simp [faninInnerStep, he]
        have hme : ¬ hit = e := fun h => he h.symm
        rw [List.foldl_cons, hstep,
            ih _ (fun h => fun hm => (hcond h) (List.mem_cons_of_mem e hm)) hW]
        by_cases hr : hit ∈ rest <;> simp [List.mem_cons, hr, hme]

/-- Closed form of the full fan-in scan (outer loop over a candidate node
list `L`), hit node currently MAGENTA: every listed node with an edge into
`hit` turns BLUE and highlighted. -/
theorem fanin_fold_magenta (ctx : DrawContext) (hit : Nat) (L : List Nat) :
    ∀ s : HighlightState, hit ∉ (ctx.node hit).edges → s.color hit = Color.MAGENTA →
      L.foldl (fun t inode => ((ctx.node inode).edges).foldl (faninInnerStep hit inode) t) s =
        { color := fun j =>
            if j ∈ L ∧ hit ∈ (ctx.node j).edges then Color.BLUE else s.color j
          highlighted := fun j =>
            if j ∈ L ∧ hit ∈ (ctx.node j).edges then true else s.highlighted j } := by
  induction L with
  | nil =>
      intro s _ _
      apply HighlightState.ext <;> intro j <;> simp
  | cons i rest ih =>
      intro s hself hM
      have hinner := fanin_inner_fold_magenta hit i ((ctx.node i).edges) s
        (fun h => h ▸ hself) hM
      rw [List.foldl_cons, hinner]
      by_cases hie : hit ∈ (ctx.node i).edges
      · have hine : i ≠ hit := fun h => hself (h ▸ hie)
        have hM' : (setNode s i Color.BLUE true).color hit = Color.MAGENTA := by
          rw [setNode_color_other s _ _ (Ne.symm hine)]; exact hM
        rw [if_pos hie, ih _ hself hM']
        apply HighlightState.ext <;> intro j <;>
          by_cases hji : j = i <;> by_cases hjr : j ∈ rest <;>
          by_cases hje : hit ∈ (ctx.node j).edges <;>
          simp_all [setNode, List.mem_cons]
      · rw [if_neg hie, ih _ hself hM]
        apply HighlightState.ext <;> intro j <;>
          by_cases hji : j = i <;>
          first
          | (subst hji; simp [hie])
          | simp [List.mem_cons, hji]

/-- Closed form of the full fan-in scan, hit node currently WHITE: every
listed node with an edge into `hit` is reset to default. -/
theorem fanin_fold_white (ctx : DrawContext) (hit : Nat) (L : List Nat) :
    ∀ s : HighlightState, hit ∉ (ctx.node hit).edges → s.color hit = Color.WHITE →
      L.foldl (fun t inode => ((ctx.node inode).edges).foldl (faninInnerStep hit inode) t) s =
        { color := fun j =>
            if j ∈ L ∧ hit ∈ (ctx.node j).edges then DEFAULT_RR_NODE_COLOR else s.color j
          highlighted := fun j =>
            if j ∈ L ∧ hit ∈ (ctx.node j).edges then false else s.highlighted j } := by
  induction L with
  | nil =>
      intro s _ _
      apply HighlightState.ext <;> intro j <;> simp
  | cons i rest ih =>
      intro s hself hW
      have hinner := fanin_inner_fold_white hit i ((ctx.node i).edges) s
        (fun h => h ▸ hself) hW
      rw [List.foldl_cons, hinner]
      by_cases hie : hit ∈ (ctx.node i).edges
      · have hine : i ≠ hit := fun h => hself (h ▸ hie)
        have hW' : (setNode s i DEFAULT_RR_NODE_COLOR false).color hit = Color.WHITE := by
          rw [setNode_color_other s _ _ (Ne.symm hine)]; exact hW
        rw [if_pos hie, ih _ hself hW']
        apply HighlightState.ext <;> intro j <;>
          by_cases hji : j = i <;> by_cases hjr : j ∈ rest <;>
          by_cases hje : hit ∈ (ctx.node j).edges <;>
          simp_all [setNode, List.mem_cons]
      · rw [if_neg hie, ih _ hself hW]
        apply HighlightState.ext <;> intro j <;>
          by_cases hji : j = i <;>
          first
          | (subst hji; simp [hie])
          | simp [List.mem_cons, hji]

/-- Closed form of `draw_highlight_fan_in_fan_out` on a MAGENTA
(just-selected) hit node: fan-in nodes turn BLUE, remaining fan-out nodes
turn `DRIVES_IT_COLOR`, both become highlighted; nothing else changes. -/
theorem fan_in_fan_out_magenta (ctx : DrawContext) (hit : Nat) (s : HighlightState)
    (hself : hit ∉ (ctx.node hit).edges) (hM : s.color hit = Color.MAGENTA) :
    draw_highlight_fan_in_fan_out ctx hit s =
      { color := fun j =>
          if j < ctx.numNodes ∧ hit ∈ (ctx.node j).edges then Color.BLUE
          else if j ∈ (ctx.node hit).edges then DRIVES_IT_COLOR
          else s.color j
        highlighted := fun j =>
          if (j < ctx.numNodes ∧ hit ∈ (ctx.node j).edges) ∨ j ∈ (ctx.node hit).edges
          then true else s.highlighted j } := by
  unfold draw_highlight_fan_in_fan_out
  rw [fanout_fold_magenta hit _ s hself hM]
  rw [fanin_fold_magenta ctx hit _ _ hself (by simp [hself, hM])]
  apply HighlightState.ext <;> intro j <;>
    by_cases h1 : j < ctx.numNodes ∧ hit ∈ (ctx.node j).edges <;>
    by_cases h2 : j ∈ (ctx.node hit).edges <;>
    simp_all [List.mem_range]

/-- Closed form of `draw_highlight_fan_in_fan_out` on a WHITE
(just-deselected) hit node: all fan-in and fan-out nodes are reset to the
default color and un-highlighted; nothing else changes. -/
theorem fan_in_fan_out_white (ctx : DrawContext) (hit : Nat) (s : HighlightState)
    (hself : hit ∉ (ctx.node hit).edges) (hW : s.color hit = Color.WHITE) :
    draw_highlight_fan_in_fan_out ctx hit s =
      { color := fun j =>
          if (j < ctx.numNodes ∧ hit ∈ (ctx.node j).edges) ∨ j ∈ (ctx.node hit).edges
          then DEFAULT_RR_NODE_COLOR else s.color j
        highlighted := fun j =>
          if (j < ctx.numNodes ∧ hit ∈ (ctx.node j).edges) ∨ j ∈ (ctx.node hit).edges
          then false else s.highlighted j } := by
  unfold draw_highlight_fan_in_fan_out
  rw [fanout_fold_white hit _ s hself hW]
  rw [fanin_fold_white ctx hit _ _ hself (by simp [hself, hW])]
  apply HighlightState.ext <;> intro j <;>
    by_cases h1 : j < ctx.numNodes ∧ hit ∈ (ctx.node j).edges <;>
    by_cases h2 : j ∈ (ctx.node hit).edges <;>
    simp_all [List.mem_range]

/-- Claim C3: on a click that hits node N, if `color[N]` is not MAGENTA
then N becomes MAGENTA and highlighted, otherwise N becomes WHITE and
un-highlighted.  The hypotheses: the click is not in the
everything-hidden early-return mode, and N has no self-edge (so the
propagation that may follow cannot recolor N itself). -/
theorem highlight_toggle_transition (ctx : DrawContext) (toggle : RRToggle)
    (show_nets : Bool) (hit : Nat) (s : HighlightState)
    (hreach : ¬(toggle = RRToggle.DRAW_NO_RR ∧ show_nets = false))
    (hself : hit ∉ (ctx.node hit).edges) :
    (s.color hit ≠ Color.MAGENTA →
      (highlight_rr_nodes_click ctx toggle show_nets hit s).color hit = Color.MAGENTA ∧
      (highlight_rr_nodes_click ctx toggle show_nets hit s).highlighted hit = true) ∧
    (s.color hit = Color.MAGENTA →
      (highlight_rr_nodes_click ctx toggle show_nets hit s).color hit = Color.WHITE ∧
      (highlight_rr_nodes_click ctx toggle show_nets hit s).highlighted hit = false) := by
  unfold highlight_rr_nodes_click
  rw [if_neg hreach]
  constructor
  · intro hne
    rw [if_pos hne]
    by_cases htog : toggle = RRToggle.DRAW_NO_RR
    · rw [if_neg (show ¬ toggle ≠ RRToggle.DRAW_NO_RR by simp [htog])]
      simp [setNode]
    · rw [if_pos (show toggle ≠ RRToggle.DRAW_NO_RR from htog)]
      rw [fan_in_fan_out_magenta ctx hit _ hself (setNode_color_same s hit _ _)]
      simp [hself, setNode]
  · intro heq
    rw [if_neg (show ¬ s.color hit ≠ Color.MAGENTA by simp [heq])]
    by_cases htog : toggle = RRToggle.DRAW_NO_RR
    · rw [if_neg (show ¬ toggle ≠ RRToggle.DRAW_NO_RR by simp [htog])]
      simp [setNode]
    · rw [if_pos (show toggle ≠ RRToggle.DRAW_NO_RR from htog)]
      rw [fan_in_fan_out_white ctx hit _ hself (setNode_color_same s hit _ _)]
      simp [hself, setNode]

/-- Example RR graph used by concrete witnesses: three nodes,
node 0 drives node 1, node 2 drives node 0. -/
def exCtx : DrawContext :=
  { numNodes := 3
    node := fun n =>
      if n = 0 then
        { type := RRType.CHANX, xlow := 1, xhigh := 1, ylow := 1, yhigh := 1
          ptc := 0, direction := Direction.BI_DIRECTION, edges := [1], switches := [5] }
      else if n = 2 then
        { type := RRType.CHANY, xlow := 1, xhigh := 1, ylow := 1, yhigh := 1
          ptc := 1, direction := Direction.BI_DIRECTION, edges := [0], switches := [7] }
      else
        { type := RRType.SOURCE, xlow := 1, xhigh := 1, ylow := 1, yhigh := 1
          ptc := 0, direction := Direction.BI_DIRECTION, edges := [], switches := [] }
    grid := fun _ _ =>
      { width_offset := 0, height_offset := 0, num_pins := 2, capacity := 1
        pinloc := fun _ _ side pin => side = 0 && pin = 0 }
    tile_x := fun i => (i : ℚ)
    tile_y := fun j => (j : ℚ)
    tile_width := 1
    pin_size := 1/10 }

/-- Example highlight state: everything default. -/
def exState0 : HighlightState :=
  { color := fun _ => DEFAULT_RR_NODE_COLOR, highlighted := fun _ => false }

/-- Witness for `highlight_toggle_transition` on the concrete example. -/
theorem highlight_toggle_transition_witness :
    (exState0.color 0 ≠ Color.MAGENTA →
      (highlight_rr_nodes_click exCtx RRToggle.DRAW_ALL_RR false 0 exState0).color 0
          = Color.MAGENTA ∧
      (highlight_rr_nodes_click exCtx RRToggle.DRAW_ALL_RR false 0 exState0).highlighted 0
          = true) ∧
    (exState0.color 0 = Color.MAGENTA →
      (highlight_rr_nodes_click exCtx RRToggle.DRAW_ALL_RR false 0 exState0).color 0
          = Color.WHITE ∧
      (highlight_rr_nodes_click exCtx RRToggle.DRAW_ALL_RR false 0 exState0).highlighted 0
          = false) :=
  highlight_toggle_transition exCtx RRToggle.DRAW_ALL_RR false 0 exState0
    (by decide) (by decide)

/-- Claim C4 counterexample: with the RR graph hidden (`DRAW_NO_RR`) but
nets shown, clicking node 0 of `exCtx` performs the highlight transition
(node 0 turns MAGENTA) yet neither its fan-out node 1 nor its fan-in
node 2 is touched — propagation does NOT run after this transition,
contradicting "immediately after every highlight transition ...
propagation runs exactly one hop". -/
theorem click_propagation_gated_counterexample :
    (highlight_rr_nodes_click exCtx RRToggle.DRAW_NO_RR true 0 exState0).color 0
        = Color.MAGENTA ∧
    (highlight_rr_nodes_click exCtx RRToggle.DRAW_NO_RR true 0 exState0).color 1
        = DEFAULT_RR_NODE_COLOR ∧
    (highlight_rr_nodes_click exCtx RRToggle.DRAW_NO_RR true 0 exState0).highlighted 1
        = false ∧
    (highlight_rr_nodes_click exCtx RRToggle.DRAW_NO_RR true 0 exState0).color 2
        = DEFAULT_RR_NODE_COLOR ∧
    (highlight_rr_nodes_click exCtx RRToggle.DRAW_NO_RR true 0 exState0).highlighted 2
        = false ∧
    DEFAULT_RR_NODE_COLOR ≠ DRIVES_IT_COLOR ∧
    DEFAULT_RR_NODE_COLOR ≠ Color.BLUE := by
  decide

/-- Claim C4 (amended: propagation runs only when the RR graph is
displayed, `draw_rr_toggle ≠ DRAW_NO_RR`): after the transition of hit
node N, one-hop propagation happens — if N became SELECTED, every node P
with an edge into N (found by the scan over all `numNodes` nodes) gets
BLUE/highlighted, and every remaining fan-out target of N gets the
fan-out color/highlighted; if N became DESELECTED-TRANSIENT both sets are
reset to default/un-highlighted; and any node other than N that is
neither a fan-in nor a fan-out of N is unchanged (one hop only). -/
theorem click_propagation_one_hop (ctx : DrawContext) (toggle : RRToggle)
    (show_nets : Bool) (hit : Nat) (s : HighlightState)
    (htog : toggle ≠ RRToggle.DRAW_NO_RR)
    (hself : hit ∉ (ctx.node hit).edges) :
    (s.color hit ≠ Color.MAGENTA →
      (∀ m, m < ctx.numNodes → hit ∈ (ctx.node m).edges →
        (highlight_rr_nodes_click ctx toggle show_nets hit s).color m = Color.BLUE ∧
        (highlight_rr_nodes_click ctx toggle show_nets hit s).highlighted m = true) ∧
      (∀ m, ¬(m < ctx.numNodes ∧ hit ∈ (ctx.node m).edges) →
        m ∈ (ctx.node hit).edges →
        (highlight_rr_nodes_click ctx toggle show_nets hit s).color m = DRIVES_IT_COLOR ∧
        (highlight_rr_nodes_click ctx toggle show_nets hit s).highlighted m = true)) ∧
    (s.color hit = Color.MAGENTA →
      (∀ m, (m < ctx.numNodes ∧ hit ∈ (ctx.node m).edges) ∨ m ∈ (ctx.node hit).edges →
        (highlight_rr_nodes_click ctx toggle show_nets hit s).color m
            = DEFAULT_RR_NODE_COLOR ∧
        (highlight_rr_nodes_click ctx toggle show_nets hit s).highlighted m = false)) ∧
    (∀ m, m ≠ hit → m ∉ (ctx.node hit).edges →
        ¬(m < ctx.numNodes ∧ hit ∈ (ctx.node m).edges) →
        (highlight_rr_nodes_click ctx toggle show_nets hit s).color m = s.color m ∧
        (highlight_rr_nodes_click ctx toggle show_nets hit s).highlighted m
            = s.highlighted m) := by
  have hreach : ¬(toggle = RRToggle.DRAW_NO_RR ∧ show_nets = false) := by
    intro h; exact htog h.1
  unfold highlight_rr_nodes_click
  rw [if_neg hreach]
  by_cases hne : s.color hit ≠ Color.MAGENTA
  · rw [if_pos hne, if_pos (show toggle ≠ RRToggle.DRAW_NO_RR from htog)]
    rw [fan_in_fan_out_magenta ctx hit _ hself (setNode_color_same s hit _ _)]
    refine ⟨fun _ => ⟨fun m h1 h2 => ?_, fun m h1 h2 => ?_⟩,
            fun heq => absurd heq hne, fun m hm1 hm2 hm3 => ?_⟩
    · simp [h1, h2]
    · have hmh : m ≠ hit := fun he => hself (he ▸ h2)
      simp [h1, h2, setNode, hmh]
    · simp [hm2, hm3, setNode, hm1]
  · rw [if_neg hne]
    have heq : s.color hit = Color.MAGENTA := not_not.mp hne
    rw [if_pos (show toggle ≠ RRToggle.DRAW_NO_RR from htog)]
    rw [fan_in_fan_out_white ctx hit _ hself (setNode_color_same s hit _ _)]
    refine ⟨fun h => absurd heq h, fun _ => fun m hm => ?_, fun m hm1 hm2 hm3 => ?_⟩
    · have hmh : m ≠ hit := by
        rcases hm with h | h
        · exact fun he => hself (he ▸ h.2)
        · exact fun he => hself (he ▸ h)
      simp [hm, setNode, hmh]
    · simp [hm2, hm3, setNode, hm1]

/-- Witness for `click_propagation_one_hop` on the concrete example:
clicking node 0 of `exCtx` turns fan-in node 2 BLUE, fan-out node 1 to the
fan-out color, and touches nothing else. -/
theorem click_propagation_one_hop_witness :
    (exState0.color 0 ≠ Color.MAGENTA →
      (∀ m, m < exCtx.numNodes → 0 ∈ (exCtx.node m).edges →
        (highlight_rr_nodes_click exCtx RRToggle.DRAW_ALL_RR false 0 exState0).color m
            = Color.BLUE ∧
        (highlight_rr_nodes_click exCtx RRToggle.DRAW_ALL_RR false 0 exState0).highlighted m
            = true) ∧
      (∀ m, ¬(m < exCtx.numNodes ∧ 0 ∈ (exCtx.node m).edges) →
        m ∈ (exCtx.node 0).edges →
        (highlight_rr_nodes_click exCtx RRToggle.DRAW_ALL_RR false 0 exState0).color m
            = DRIVES_IT_COLOR ∧
        (highlight_rr_nodes_click exCtx RRToggle.DRAW_ALL_RR false 0 exState0).highlighted m
            = true)) ∧
    (exState0.color 0 = Color.MAGENTA →
      (∀ m, (m < exCtx.numNodes ∧ 0 ∈ (exCtx.node m).edges) ∨ m ∈ (exCtx.node 0).edges →
        (highlight_rr_nodes_click exCtx RRToggle.DRAW_ALL_RR false 0 exState0).color m
            = DEFAULT_RR_NODE_COLOR ∧
        (highlight_rr_nodes_click exCtx RRToggle.DRAW_ALL_RR false 0 exState0).highlighted m
            = false)) ∧
    (∀ m, m ≠ 0 → m ∉ (exCtx.node 0).edges →
        ¬(m < exCtx.numNodes ∧ 0 ∈ (exCtx.node m).edges) →
        (highlight_rr_nodes_click exCtx RRToggle.DRAW_ALL_RR false 0 exState0).color m
            = exState0.color m ∧
        (highlight_rr_nodes_click exCtx RRToggle.DRAW_ALL_RR false 0 exState0).highlighted m
            = exState0.highlighted m) :=
  click_propagation_one_hop exCtx RRToggle.DRAW_ALL_RR false 0 exState0
    (by decide) (by decide)

/-- Example highlight state with a non-default neighbor: node 1 (the
fan-out of node 0) is already RED and highlighted. -/
def exStatePre : HighlightState :=
  { color := fun j => if j = 1 then Color.RED else DEFAULT_RR_NODE_COLOR
    highlighted := fun j => j == 1 }

/-- Claim C5 counterexample: toggling node 0 of `exCtx` to SELECTED and
immediately back does NOT restore fan-out neighbor 1, whose pre-toggle
state was RED/highlighted: the round trip leaves it at the default color,
un-highlighted. -/
theorem toggle_roundtrip_counterexample :
    exStatePre.color 1 = Color.RED ∧
    exStatePre.highlighted 1 = true ∧
    (highlight_rr_nodes_click exCtx RRToggle.DRAW_ALL_RR false 0
      (highlight_rr_nodes_click exCtx RRToggle.DRAW_ALL_RR false 0 exStatePre)).color 1
        = DEFAULT_RR_NODE_COLOR ∧
    (highlight_rr_nodes_click exCtx RRToggle.DRAW_ALL_RR false 0
      (highlight_rr_nodes_click exCtx RRToggle.DRAW_ALL_RR false 0 exStatePre)).highlighted 1
        = false ∧
    DEFAULT_RR_NODE_COLOR ≠ Color.RED := by
  decide

/-- Claim C5 (amended: the round-trip identity holds for neighbors whose
pre-toggle state is the default one — default color, not highlighted —
the only state the deselect propagation can restore): toggling N to
SELECTED and immediately back restores the color and highlighted flag of
every fan-in and fan-out neighbor of N. -/
theorem toggle_roundtrip_neighbors (ctx : DrawContext) (toggle : RRToggle)
    (show_nets : Bool) (hit : Nat) (s : HighlightState)
    (hself : hit ∉ (ctx.node hit).edges)
    (hsel : s.color hit ≠ Color.MAGENTA)
    (hdef : ∀ m, (m < ctx.numNodes ∧ hit ∈ (ctx.node m).edges) ∨ m ∈ (ctx.node hit).edges →
      s.color m = DEFAULT_RR_NODE_COLOR ∧ s.highlighted m = false) :
    ∀ m, (m < ctx.numNodes ∧ hit ∈ (ctx.node m).edges) ∨ m ∈ (ctx.node hit).edges →
      (highlight_rr_nodes_click ctx toggle show_nets hit
        (highlight_rr_nodes_click ctx toggle show_nets hit s)).color m = s.color m ∧
      (highlight_rr_nodes_click ctx toggle show_nets hit
        (highlight_rr_nodes_click ctx toggle show_nets hit s)).highlighted m
        = s.highlighted m := by
  intro m hm
  have hmh : m ≠ hit := by
    rcases hm with h | h
    · exact fun he => hself (he ▸ h.2)
    · exact fun he => hself (he ▸ h)
  by_cases hreach : toggle = RRToggle.DRAW_NO_RR ∧ show_nets = false
  · have e0 : ∀ t, highlight_rr_nodes_click ctx toggle show_nets hit t = t := by
      intro t; unfold highlight_rr_nodes_click; rw [if_pos hreach]
    rw [e0, e0]
    exact ⟨rfl, rfl⟩
  · by_cases htog : toggle = RRToggle.DRAW_NO_RR
    · have e1 : highlight_rr_nodes_click ctx toggle show_nets hit s
          = setNode s hit Color.MAGENTA true := by
        unfold highlight_rr_nodes_click
        rw [if_neg hreach, if_pos hsel,
            if_neg (show ¬ toggle ≠ RRToggle.DRAW_NO_RR by simp [htog])]
      have e2 : highlight_rr_nodes_click ctx toggle show_nets hit
            (setNode s hit Color.MAGENTA true)
          = setNode (setNode s hit Color.MAGENTA true) hit Color.WHITE false := by
        unfold highlight_rr_nodes_click
        rw [if_neg hreach,
            if_neg (show ¬ (setNode s hit Color.MAGENTA true).color hit ≠ Color.MAGENTA
              by simp [setNode]),
            if_neg (show ¬ toggle ≠ RRToggle.DRAW_NO_RR by simp [htog])]
      rw [e1, e2]
      constructor <;> simp [setNode, hmh]
    · have hM1 : (setNode s hit Color.MAGENTA true).color hit = Color.MAGENTA :=
        setNode_color_same s hit _ _
      have e1 : highlight_rr_nodes_click ctx toggle show_nets hit s
          = draw_highlight_fan_in_fan_out ctx hit (setNode s hit Color.MAGENTA true) := by
        unfold highlight_rr_nodes_click
        rw [if_neg hreach, if_pos hsel,
            if_pos (show toggle ≠ RRToggle.DRAW_NO_RR from htog)]
      have hF1hit : (draw_highlight_fan_in_fan_out ctx hit
            (setNode s hit Color.MAGENTA true)).color hit = Color.MAGENTA := by
        rw [fan_in_fan_out_magenta ctx hit _ hself hM1]
        simp [hself, setNode]
      have e2 : highlight_rr_nodes_click ctx toggle show_nets hit
            (draw_highlight_fan_in_fan_out ctx hit (setNode s hit Color.MAGENTA true))
          = draw_highlight_fan_in_fan_out ctx hit
              (setNode (draw_highlight_fan_in_fan_out ctx hit
                (setNode s hit Color.MAGENTA true)) hit Color.WHITE false) := by
        unfold highlight_rr_nodes_click
        rw [if_neg hreach,
            if_neg (show ¬ (draw_highlight_fan_in_fan_out ctx hit
              (setNode s hit Color.MAGENTA true)).color hit ≠ Color.MAGENTA
              by simp [hF1hit]),
            if_pos (show toggle ≠ RRToggle.DRAW_NO_RR from htog)]
      rw [e1, e2]
      rw [fan_in_fan_out_white ctx hit _ hself (setNode_color_same _ hit _ _)]
      obtain ⟨hdc, hdh⟩ := hdef m hm
      exact ⟨by simp [hm, hdc], by simp [hm, hdh]⟩

/-- Witness for `toggle_roundtrip_neighbors` on the concrete example:
fan-out neighbor 1 and fan-in neighbor 2 of node 0 are restored. -/
theorem toggle_roundtrip_neighbors_witness :
    ((highlight_rr_nodes_click exCtx RRToggle.DRAW_ALL_RR false 0
        (highlight_rr_nodes_click exCtx RRToggle.DRAW_ALL_RR false 0 exState0)).color 1
          = exState0.color 1 ∧
      (highlight_rr_nodes_click exCtx RRToggle.DRAW_ALL_RR false 0
        (highlight_rr_nodes_click exCtx RRToggle.DRAW_ALL_RR false 0 exState0)).highlighted 1
          = exState0.highlighted 1) ∧
    ((highlight_rr_nodes_click exCtx RRToggle.DRAW_ALL_RR false 0
        (highlight_rr_nodes_click exCtx RRToggle.DRAW_ALL_RR false 0 exState0)).color 2
          = exState0.color 2 ∧
      (highlight_rr_nodes_click exCtx RRToggle.DRAW_ALL_RR false 0
        (highlight_rr_nodes_click exCtx RRToggle.DRAW_ALL_RR false 0 exState0)).highlighted 2
          = exState0.highlighted 2) :=
  ⟨toggle_roundtrip_neighbors exCtx RRToggle.DRAW_ALL_RR false 0 exState0
      (by decide) (by decide) (fun m _ => ⟨rfl, rfl⟩) 1 (Or.inr (by decide)),
   toggle_roundtrip_neighbors exCtx RRToggle.DRAW_ALL_RR false 0 exState0
      (by decide) (by decide) (fun m _ => ⟨rfl, rfl⟩) 2 (Or.inl (by decide))⟩

/-- Embedding of the per-net scan of `highlight_nets` (draw.cpp lines
1872-1886): walk the net's trace with the current net color `c`; a
MAGENTA node recolors the net MAGENTA (that node's color) and the scan
continues; a WHITE node recolors the net BLACK and stops the scan. -/
def highlight_nets_scan (nodeColor : Nat → Color) : List Nat → Color → Color
  | [], c => c
  | n :: rest, c =>
    if nodeColor n = Color.MAGENTA then highlight_nets_scan nodeColor rest Color.MAGENTA
    else if nodeColor n = Color.WHITE then Color.BLACK
    else highlight_nets_scan nodeColor rest c

/-- Claim C9 counterexample: on a trace whose FIRST matching node is
MAGENTA (node 0) followed by a WHITE node (node 1), the net ends BLACK,
not MAGENTA — so "the first match encountered in scan order governs the
net's final color" is false: the WHITE (deselect) match governs. -/
theorem highlight_nets_first_match_counterexample :
    ((([0, 1] : List Nat).find? (fun n =>
        decide ((fun k => if k = 0 then Color.MAGENTA else Color.WHITE) n = Color.MAGENTA) ||
        decide ((fun k => if k = 0 then Color.MAGENTA else Color.WHITE) n = Color.WHITE)))
      = some 0) ∧
    (fun k => if k = 0 then Color.MAGENTA else Color.WHITE) 0 = Color.MAGENTA ∧
    highlight_nets_scan (fun k => if k = 0 then Color.MAGENTA else Color.WHITE)
        [0, 1] Color.GREEN = Color.BLACK ∧
    Color.BLACK ≠ Color.MAGENTA := by
  decide

/-- Claim C9 (amended: the deselect match governs, not the first match):
scanning a net's trace, if any node on it is WHITE the net reverts to
BLACK — the scan stops at the first such node and earlier MAGENTA matches
are overridden; if no node is WHITE but some node is MAGENTA the net is
colored MAGENTA; with neither, the net color is unchanged. -/
theorem highlight_nets_scan_spec (f : Nat → Color) (tr : List Nat) :
    ∀ c : Color,
      ((∃ n ∈ tr, f n = Color.WHITE) → highlight_nets_scan f tr c = Color.BLACK) ∧
      ((∀ n ∈ tr, f n ≠ Color.WHITE) → (∃ n ∈ tr, f n = Color.MAGENTA) →
        highlight_nets_scan f tr c = Color.MAGENTA) ∧
      ((∀ n ∈ tr, f n ≠ Color.WHITE ∧ f n ≠ Color.MAGENTA) →
        highlight_nets_scan f tr c = c) := by
  induction tr with
  | nil =>
      intro c
      refine ⟨?_, ?_, ?_⟩
      · rintro ⟨n, hn, _⟩; exact absurd hn (List.not_mem_nil n)
      · rintro _ ⟨n, hn, _⟩; exact absurd hn (List.not_mem_nil n)
      · intro _; rfl
  | cons n rest ih =>
      intro c
      by_cases hM : f n = Color.MAGENTA
      · have hstep : highlight_nets_scan f (n :: rest) c
            = highlight_nets_scan f rest Color.MAGENTA := by
          simp [highlight_nets_scan, hM]
        refine ⟨?_, ?_, ?_⟩
        · rintro ⟨m, hm, hw⟩
          rcases List.mem_cons.mp hm with h | h
          · rw [h] at hw; rw [hM] at hw; exact absurd hw (by simp)
          · rw [hstep]; exact (ih Color.MAGENTA).1 ⟨m, h, hw⟩
        · intro hnw _
          rw [hstep]
          by_cases hrm : ∃ m ∈ rest, f m = Color.MAGENTA
          · exact (ih Color.MAGENTA).2.1
              (fun m hm => hnw m (List.mem_cons_of_mem n hm)) hrm
          · push_neg at hrm
            exact (ih Color.MAGENTA).2.2 (fun m hm =>
              ⟨hnw m (List.mem_cons_of_mem n hm), hrm m hm⟩)
        · intro hno
          exact absurd hM (hno n (List.mem_cons_self n rest)).2
      · by_cases hW : f n = Color.WHITE
        · have hstep : highlight_nets_scan f (n :: rest) c = Color.BLACK := by
            simp [highlight_nets_scan, hM, hW]
          refine ⟨fun _ => hstep, ?_, ?_⟩
          · intro hnw _
            exact absurd hW (hnw n (List.mem_cons_self n rest))
          · intro hno
            exact absurd hW (hno n (List.mem_cons_self n rest)).1
        · have hstep : highlight_nets_scan f (n :: rest) c
              = highlight_nets_scan f rest c := by
            simp [highlight_nets_scan, hM, hW]
          refine ⟨?_, ?_, ?_⟩
          · rintro ⟨m, hm, hw⟩
            rcases List.mem_cons.mp hm with h | h
            · rw [h] at hw; exact absurd hw hW
            · rw [hstep]; exact (ih c).1 ⟨m, h, hw⟩
          · rintro hnw ⟨m, hm, hmm⟩
            rcases List.mem_cons.mp hm with h | h
            · rw [h] at hmm; exact absurd hmm hM
            · rw [hstep]
              exact (ih c).2.1 (fun k hk => hnw k (List.mem_cons_of_mem n hk)) ⟨m, h, hmm⟩
          · intro hno
            rw [hstep]
            exact (ih c).2.2 (fun k hk => hno k (List.mem_cons_of_mem n hk))

/-- Witness for `highlight_nets_scan_spec`: a WHITE node on the trace
forces the net BLACK. -/
theorem highlight_nets_scan_spec_witness :
    highlight_nets_scan (fun k => if k = 0 then Color.MAGENTA else Color.WHITE)
        [0, 1] Color.GREEN = Color.BLACK :=
  (highlight_nets_scan_spec (fun k => if k = 0 then Color.MAGENTA else Color.WHITE)
    [0, 1] Color.GREEN).1 ⟨1, by decide, by decide⟩

/-- Embedding of the loop body of `find_switch` (draw.cpp lines
2970-2978), walking the zipped parallel `edges`/`switches` arrays: the
switch of the first edge whose target matches, `none` for the
assertion-failure fallthrough (`VTR_ASSERT(false); return -1`). -/
def find_switch_aux : List (Nat × Nat) → Nat → Option Nat
  | [], _ => none
  | (e, s) :: rest, target => if e = target then some s else find_switch_aux rest target

/-- Embedding of `find_switch` (draw.cpp lines 2970-2978). -/
def find_switch (ctx : DrawContext) (prev_inode inode : Nat) : Option Nat :=
  find_switch_aux (((ctx.node prev_inode).edges).zip ((ctx.node prev_inode).switches)) inode

theorem find_switch_aux_spec :
    ∀ (es ss : List Nat) (t : Nat), ss.length = es.length → t ∈ es →
      find_switch_aux (es.zip ss) t = ss[es.indexOf t]? ∧
      find_switch_aux (es.zip ss) t ≠ none := by
  intro es
  induction es with
  | nil => intro ss t _ ht; exact absurd ht (List.not_mem_nil t)
  | cons e es' ih =>
      intro ss t hlen ht
      match ss with
      | [] => simp at hlen
      | s :: ss' =>
        have hzip : (e :: es').zip (s :: ss') = (e, s) :: es'.zip ss' := rfl
        by_cases he : e = t
        · subst he
          constructor
          · rw [hzip]
            simp [find_switch_aux, List.indexOf_cons_self]
          · rw [hzip]
            simp [find_switch_aux]
        · have hbeq : (e == t) = false := by
            simp [he]
          have ht' : t ∈ es' := by
            rcases List.mem_cons.mp ht with h | h
            · exact absurd h.symm he
            · exact h
          have hlen' : ss'.length = es'.length := by
            simpa using hlen
          obtain ⟨h1, h2⟩ := ih ss' t hlen' ht'
          constructor
          · rw [hzip]
            simp only [find_switch_aux, if_neg he]
            rw [h1]
            simp [List.indexOf_cons, hbeq]
          · rw [hzip]
            simp only [find_switch_aux, if_neg he]
            exact h2

/-- Claim C10: given the precondition that the RR graph has at least one
edge from `prev_inode` to `inode` (which holds for every adjacent pair of
a flattened route sequence, a guarantee of the router output consumed by
`draw_partial_route`), `find_switch` returns the switch index of the
first edge of `prev_inode` whose target node is `inode`, and its
assertion-failure branch is unreachable (the result is never `none`). -/
theorem find_switch_first_edge (ctx : DrawContext) (prev_inode inode : Nat)
    (hlen : ((ctx.node prev_inode).switches).length
        = ((ctx.node prev_inode).edges).length)
    (hmem : inode ∈ (ctx.node prev_inode).edges) :
    find_switch ctx prev_inode inode
      = ((ctx.node prev_inode).switches)[((ctx.node prev_inode).edges).indexOf inode]? ∧
    find_switch ctx prev_inode inode ≠ none :=
  find_switch_aux_spec ((ctx.node prev_inode).edges)
    ((ctx.node prev_inode).switches) inode hlen hmem

/-- Witness for `find_switch_first_edge` on the concrete example graph:
node 2 drives node 0 through switch 7. -/
theorem find_switch_first_edge_witness :
    find_switch exCtx 2 0
      = ((exCtx.node 2).switches)[((exCtx.node 2).edges).indexOf 0]? ∧
    find_switch exCtx 2 0 ≠ none :=
  find_switch_first_edge exCtx 2 0 (by decide) (by decide)

/-- Embedding of `draw_get_rr_pin_coords` (draw.cpp lines 1553-1608):
center coordinate of a pin drawn on side `iside` (0 = TOP, 1 = RIGHT,
2 = BOTTOM, 3 = LEFT) of the tile at the node's low corner plus the given
offsets; `none` models the fatal unexpected-side error. -/
def draw_get_rr_pin_coords (ctx : DrawContext) (inode : Nat) (iside : Nat)
    (width_offset height_offset : Int) : Option (ℚ × ℚ) :=
  let n := ctx.node inode
  let i := n.xlow + width_offset
  let j := n.ylow + height_offset
  let xc := ctx.tile_x i
  let yc := ctx.tile_y j
  let ipin := n.ptc
  let t := ctx.grid i j
  let pins_per_sub_tile := t.num_pins / t.capacity
  let k := ipin / pins_per_sub_tile
  let step := ctx.tile_width / ((t.num_pins : ℚ) + (t.capacity : ℚ))
  let offset := ((ipin : ℚ) + (k : ℚ) + 1) * step
  match iside with
  | 0 => some (xc + offset, yc + ctx.tile_width)
  | 1 => some (xc + ctx.tile_width, yc + offset)
  | 2 => some (xc + offset, yc)
  | 3 => some (xc, yc + offset)
  | _ => none

/-- Per-node body of the hit-test loop of `draw_check_rr_node_hit`
(draw.cpp lines 1952-2003): IPIN/OPIN — for each of the four sides where
the pin-placement table has the pin, test the click against the
`pin_size` square around the drawn pin center; CHANX/CHANY — test against
the channel bounding box expanded by the 0.3 tolerance; other types are
never hit. -/
def nodeHitBody (ctx : DrawContext) (inode : Nat) (click_x click_y : ℚ) : Bool :=
  match (ctx.node inode).type with
  | RRType.IPIN | RRType.OPIN =>
      let n := ctx.node inode
      let t := ctx.grid n.xlow n.ylow
      (List.range 4).any (fun iside =>
        t.pinloc t.width_offset t.height_offset iside n.ptc &&
        match draw_get_rr_pin_coords ctx inode iside t.width_offset t.height_offset with
        | some (xcen, ycen) =>
            decide (click_x ≥ xcen - ctx.pin_size) &&
            decide (click_x ≤ xcen + ctx.pin_size) &&
            decide (click_y ≥ ycen - ctx.pin_size) &&
            decide (click_y ≤ ycen + ctx.pin_size)
        | none => false)
  | RRType.CHANX | RRType.CHANY =>
      let bb := draw_get_rr_chan_bbox ctx inode
      decide (click_x ≥ bb.left - 3/10) &&
      decide (click_x ≤ bb.right + 3/10) &&
      decide (click_y ≥ bb.bottom - 3/10) &&
      decide (click_y ≤ bb.top + 3/10)
  | _ => false

/-- The first-match loop of `draw_check_rr_node_hit` over a node index
list (the C++ `for` loop with early `return`). -/
def hitLoop (ctx : DrawContext) (click_x click_y : ℚ) : List Nat → Int
  | [] => OPEN
  | i :: rest =>
      if nodeHitBody ctx i click_x click_y then (i : Int)
      else hitLoop ctx click_x click_y rest

/-- Embedding of `draw_check_rr_node_hit` (draw.cpp lines 1945-2006). -/
def draw_check_rr_node_hit (ctx : DrawContext) (click_x click_y : ℚ) : Int :=
  hitLoop ctx click_x click_y (List.range ctx.numNodes)

/-- Claim-side description of a node's test region (written from the
claim): for IPIN/OPIN, a square of half-size `pin_size` centered at the
pin's drawn coordinate on each side where the pin physically exists; for
CHANX/CHANY, the channel bounding box expanded by 0.3 world units on all
four sides; SOURCE and SINK nodes have no region. -/
def hitRegionSpec (ctx : DrawContext) (inode : Nat) (click_x click_y : ℚ) : Bool :=
  match (ctx.node inode).type with
  | RRType.IPIN | RRType.OPIN =>
      let n := ctx.node inode
      let t := ctx.grid n.xlow n.ylow
      (List.range 4).any (fun iside =>
        t.pinloc t.width_offset t.height_offset iside n.ptc &&
        match draw_get_rr_pin_coords ctx inode iside t.width_offset t.height_offset with
        | some (xcen, ycen) =>
            decide (|click_x - xcen| ≤ ctx.pin_size) &&
            decide (|click_y - ycen| ≤ ctx.pin_size)
        | none => false)
  | RRType.CHANX | RRType.CHANY =>
      let bb := draw_get_rr_chan_bbox ctx inode
      decide (bb.left - 3/10 ≤ click_x) && decide (click_x ≤ bb.right + 3/10) &&
      decide (bb.bottom - 3/10 ≤ click_y) && decide (click_y ≤ bb.top + 3/10)
  | RRType.SOURCE | RRType.SINK => false

theorem abs_square_test (x c p : ℚ) :
    (decide (x ≥ c - p) && decide (x ≤ c + p)) = decide (|x - c| ≤ p) := by
  rw [show (decide (x ≥ c - p) && decide (x ≤ c + p))
        = decide (x ≥ c - p ∧ x ≤ c + p) by simp]
  rw [decide_eq_decide]
  rw [abs_sub_le_iff]
  constructor
  · rintro ⟨h1, h2⟩
    exact ⟨by linarith, by linarith⟩
  · rintro ⟨h1, h2⟩
    exact ⟨by linarith, by linarith⟩

theorem pin_side_test_eq (px py p : ℚ) (b : Bool) (o : Option (ℚ × ℚ)) :
    (b && match o with
          | some (xcen, ycen) =>
              decide (px ≥ xcen - p) && decide (px ≤ xcen + p) &&
              decide (py ≥ ycen - p) && decide (py ≤ ycen + p)
          | none => false)
    = (b && match o with
            | some (xcen, ycen) =>
                decide (|px - xcen| ≤ p) && decide (|py - ycen| ≤ p)
            | none => false) := by
  cases o with
  | none => rfl
  | some q =>
      obtain ⟨xcen, ycen⟩ := q
      simp only []
      rw [← abs_square_test px xcen p, ← abs_square_test py ycen p]
      rw [Bool.and_assoc]

theorem nodeHitBody_eq_hitRegionSpec (ctx : DrawContext) (inode : Nat)
    (click_x click_y : ℚ) :
    nodeHitBody ctx inode click_x click_y = hitRegionSpec ctx inode click_x click_y := by
  unfold nodeHitBody hitRegionSpec
  cases htype : (ctx.node inode).type
  case SOURCE => rfl
  case SINK => rfl
  case CHANX => simp [ge_iff_le]
  case CHANY => simp [ge_iff_le]
  case IPIN => simp only [pin_side_test_eq]
  case OPIN => simp only [pin_side_test_eq]

theorem hitLoop_eq_find (ctx : DrawContext) (click_x click_y : ℚ) :
    ∀ l : List Nat,
      hitLoop ctx click_x click_y l =
        (match l.find? (fun i => hitRegionSpec ctx i click_x click_y) with
         | some i => (i : Int)
         | none => OPEN) := by
  intro l
  induction l with
  | nil => rfl
  | cons i rest ih =>
      by_cases h : hitRegionSpec ctx i click_x click_y = true
      · simp [hitLoop, nodeHitBody_eq_hitRegionSpec, h, List.find?_cons]
      · have h' : hitRegionSpec ctx i click_x click_y = false :=
          Bool.eq_false_iff.mpr h
        simp [hitLoop, nodeHitBody_eq_hitRegionSpec, h', List.find?_cons, ih]

/-- Claim C1: `draw_check_rr_node_hit` examines nodes in increasing index
order and returns the first node whose test region (pin square of
half-size `pin_size` on each side where the pin exists for IPIN/OPIN;
channel bbox expanded by 0.3 on all four sides for CHANX/CHANY) contains
the click point, and returns `OPEN` when no region contains it; SOURCE
and SINK nodes have no test region, so they are never returned. -/
theorem hit_test_first_region (ctx : DrawContext) (click_x click_y : ℚ) :
    (draw_check_rr_node_hit ctx click_x click_y =
      (match (List.range ctx.numNodes).find?
          (fun i => hitRegionSpec ctx i click_x click_y) with
       | some i => (i : Int)
       | none => OPEN)) ∧
    (∀ i, (ctx.node i).type = RRType.SOURCE ∨ (ctx.node i).type = RRType.SINK →
      hitRegionSpec ctx i click_x click_y = false) := by
  constructor
  · exact hitLoop_eq_find ctx click_x click_y (List.range ctx.numNodes)
  · intro i hi
    unfold hitRegionSpec
    rcases hi with h | h <;> rw [h]

/-- Witness for `hit_test_first_region`: node 1 of `exCtx` is a SOURCE
and its test region never contains a click. -/
theorem hit_test_first_region_witness :
    hitRegionSpec exCtx 1 (1/2) (1/2) = false :=
  (hit_test_first_region exCtx (1/2) (1/2)).2 1 (Or.inl rfl)

/-- Embedding of `draw_chanx_to_chanx_edge` (draw.cpp lines 1264-1349)
as the computed line segment `((x1,y1),(x2,y2))` with `(x1,y1)` on the
from-node and `(x2,y2)` on the to-node; `none` models the
`VTR_ASSERT` failures in the unidirectional overlap branch. -/
def draw_chanx_to_chanx_edge (ctx : DrawContext) (from_node to_node : Nat)
    (to_track : Int) : Option ((ℚ × ℚ) × (ℚ × ℚ)) :=
  let from_chan := draw_get_rr_chan_bbox ctx from_node
  let to_chan := draw_get_rr_chan_bbox ctx to_node
  let y1 := from_chan.bottom
  let y2 := to_chan.bottom
  let from_xlow := (ctx.node from_node).xlow
  let from_xhigh := (ctx.node from_node).xhigh
  let to_xlow := (ctx.node to_node).xlow
  let to_xhigh := (ctx.node to_node).xhigh
  if to_xhigh < from_xlow then
    some ((from_chan.left, y1), (to_chan.right, y2))
  else if to_xlow > from_xhigh then
    some ((from_chan.right, y1), (to_chan.left, y2))
  else
    if (ctx.node to_node).direction ≠ Direction.BI_DIRECTION then
      if to_track % 2 = 0 then
        if from_xlow < to_xlow then
          some ((ctx.tile_x (to_xlow - 1) + ctx.tile_width, y1), (to_chan.left, y2))
        else none
      else
        if from_xhigh > to_xhigh then
          some ((ctx.tile_x (to_xhigh + 1), y1), (to_chan.right, y2))
        else none
    else
      if to_xlow < from_xlow then
        some ((from_chan.left, y1), (ctx.tile_x (from_xlow - 1) + ctx.tile_width, y2))
      else if from_xlow < to_xlow then
        some ((ctx.tile_x (to_xlow - 1) + ctx.tile_width, y1), (to_chan.left, y2))
      else if to_xhigh > from_xhigh then
        some ((from_chan.right, y1), (ctx.tile_x (from_xhigh + 1), y2))
      else if from_xhigh > to_xhigh then
        some ((ctx.tile_x (to_xhigh + 1), y1), (to_chan.right, y2))
      else
        some ((from_chan.left, y1), (from_chan.left + ctx.tile_width, y2))

/-- Embedding of `draw_chany_to_chany_edge` (draw.cpp lines 1352-1434),
same conventions as `draw_chanx_to_chanx_edge`. -/
def draw_chany_to_chany_edge (ctx : DrawContext) (from_node to_node : Nat)
    (to_track : Int) : Option ((ℚ × ℚ) × (ℚ × ℚ)) :=
  let from_chan := draw_get_rr_chan_bbox ctx from_node
  let to_chan := draw_get_rr_chan_bbox ctx to_node
  let x1 := from_chan.left
  let x2 := to_chan.left
  let from_ylow := (ctx.node from_node).ylow
  let from_yhigh := (ctx.node from_node).yhigh
  let to_ylow := (ctx.node to_node).ylow
  let to_yhigh := (ctx.node to_node).yhigh
  if to_yhigh < from_ylow then
    some ((x1, from_chan.bottom), (x2, to_chan.top))
  else if to_ylow > from_yhigh then
    some ((x1, from_chan.top), (x2, to_chan.bottom))
  else
    if (ctx.node to_node).direction ≠ Direction.BI_DIRECTION then
      if to_track % 2 = 0 then
        some ((x1, ctx.tile_y (to_ylow - 1) + ctx.tile_width), (x2, to_chan.bottom))
      else
        some ((x1, ctx.tile_y (to_yhigh + 1)), (x2, to_chan.top))
    else
      if to_ylow < from_ylow then
        some ((x1, from_chan.bottom), (x2, ctx.tile_y (from_ylow - 1) + ctx.tile_width))
      else if from_ylow < to_ylow then
        some ((x1, ctx.tile_y (to_ylow - 1) + ctx.tile_width), (x2, to_chan.bottom))
      else if to_yhigh > from_yhigh then
        some ((x1, from_chan.top), (x2, ctx.tile_y (from_yhigh + 1)))
      else if from_yhigh > to_yhigh then
        some ((x1, ctx.tile_y (to_yhigh + 1)), (x2, to_chan.top))
      else
        some ((x1, from_chan.bottom), (x2, from_chan.bottom + ctx.tile_width))

/-- Concrete channel context for the C8 claim: nodes 0 and 1 are
bidirectional CHANX wires with identical x-extent on different tracks;
nodes 0 and 2 are CHANX wires with overlapping, non-identical extents;
nodes 3 and 4 are CHANY wires with overlapping, non-identical extents. -/
def exCtxChan : DrawContext :=
  { numNodes := 5
    node := fun n =>
      if n = 0 then
        { type := RRType.CHANX, xlow := 1, xhigh := 2, ylow := 1, yhigh := 1
          ptc := 0, direction := Direction.BI_DIRECTION, edges := [], switches := [] }
      else if n = 1 then
        { type := RRType.CHANX, xlow := 1, xhigh := 2, ylow := 1, yhigh := 1
          ptc := 1, direction := Direction.BI_DIRECTION, edges := [], switches := [] }
      else if n = 2 then
        { type := RRType.CHANX, xlow := 2, xhigh := 3, ylow := 1, yhigh := 1
          ptc := 2, direction := Direction.BI_DIRECTION, edges := [], switches := [] }
      else if n = 3 then
        { type := RRType.CHANY, xlow := 1, xhigh := 1, ylow := 1, yhigh := 2
          ptc := 0, direction := Direction.BI_DIRECTION, edges := [], switches := [] }
      else
        { type := RRType.CHANY, xlow := 1, xhigh := 1, ylow := 2, yhigh := 3
          ptc := 1, direction := Direction.BI_DIRECTION, edges := [], switches := [] }
    grid := fun _ _ =>
      { width_offset := 0, height_offset := 0, num_pins := 1, capacity := 1
        pinloc := fun _ _ _ _ => false }
    tile_x := fun i => (i : ℚ)
    tile_y := fun j => (j : ℚ)
    tile_width := 1
    pin_size := 1/10 }

/-- Claim C8 counterexample: channel nodes 0 and 1 of `exCtxChan` are
both bidirectional CHANX wires whose x-ranges overlap (they are
identical), yet the segment drawn from 0 to 1 and the segment drawn from
1 to 0 are mirror images with different endpoint sets, not the same
unordered pair of points. -/
theorem chan_edge_symmetry_counterexample :
    (exCtxChan.node 0).direction = Direction.BI_DIRECTION ∧
    (exCtxChan.node 1).direction = Direction.BI_DIRECTION ∧
    (exCtxChan.node 0).xlow ≤ (exCtxChan.node 1).xhigh ∧
    (exCtxChan.node 1).xlow ≤ (exCtxChan.node 0).xhigh ∧
    draw_chanx_to_chanx_edge exCtxChan 0 1 1 = some ((1, 3), (2, 4)) ∧
    draw_chanx_to_chanx_edge exCtxChan 1 0 0 = some ((1, 4), (2, 3)) ∧
    ¬((((1 : ℚ), (3 : ℚ)) = ((1 : ℚ), (4 : ℚ)) ∧ ((2 : ℚ), (4 : ℚ)) = ((2 : ℚ), (3 : ℚ))) ∨
      (((1 : ℚ), (3 : ℚ)) = ((2 : ℚ), (3 : ℚ)) ∧ ((2 : ℚ), (4 : ℚ)) = ((1 : ℚ), (4 : ℚ)))) := by
  refine ⟨rfl, rfl, by decide, by decide, ?_, ?_, by norm_num⟩
  · norm_num [draw_chanx_to_chanx_edge, exCtxChan, draw_get_rr_chan_bbox]
  · norm_num [draw_chanx_to_chanx_edge, exCtxChan, draw_get_rr_chan_bbox]

set_option maxHeartbeats 1600000 in
/-- Claim C8 (amended: the symmetric-endpoints property holds for
bidirectional same-axis channel pairs whose coordinate ranges overlap but
are not identical; for identical ranges the code draws the two
mirror-image diagonals of the first shared tile, which coincide only if
the two wires are on the same track): for a partially overlapping
bidirectional pair, drawing B→A produces exactly the two endpoints of
drawing A→B, swapped. -/
theorem chan_edge_bidir_symmetric (ctx : DrawContext) (a b : Nat) (ta tb : Int)
    (hda : (ctx.node a).direction = Direction.BI_DIRECTION)
    (hdb : (ctx.node b).direction = Direction.BI_DIRECTION) :
    ((ctx.node a).xlow ≤ (ctx.node b).xhigh → (ctx.node b).xlow ≤ (ctx.node a).xhigh →
      ¬((ctx.node a).xlow = (ctx.node b).xlow ∧ (ctx.node a).xhigh = (ctx.node b).xhigh) →
      ∃ p q, draw_chanx_to_chanx_edge ctx a b tb = some (p, q) ∧
             draw_chanx_to_chanx_edge ctx b a ta = some (q, p)) ∧
    ((ctx.node a).ylow ≤ (ctx.node b).yhigh → (ctx.node b).ylow ≤ (ctx.node a).yhigh →
      ¬((ctx.node a).ylow = (ctx.node b).ylow ∧ (ctx.node a).yhigh = (ctx.node b).yhigh) →
      ∃ p q, draw_chany_to_chany_edge ctx a b tb = some (p, q) ∧
             draw_chany_to_chany_edge ctx b a ta = some (q, p)) := by
  constructor
  · intro h1 h2 hne
    simp only [draw_chanx_to_chanx_edge, hda, hdb, ne_eq, not_true_eq_false,
      if_false, ite_false]
    split_ifs <;> first | omega | exact ⟨_, _, rfl, rfl⟩
  · intro h1 h2 hne
    simp only [draw_chany_to_chany_edge, hda, hdb, ne_eq, not_true_eq_false,
      if_false, ite_false]
    split_ifs <;> first | omega | exact ⟨_, _, rfl, rfl⟩

/-- Witness for `chan_edge_bidir_symmetric`: the CHANX pair (0,2) and the
CHANY pair (3,4) of `exCtxChan`. -/
theorem chan_edge_bidir_symmetric_witness :
    (∃ p q, draw_chanx_to_chanx_edge exCtxChan 0 2 2 = some (p, q) ∧
            draw_chanx_to_chanx_edge exCtxChan 2 0 0 = some (q, p)) ∧
    (∃ p q, draw_chany_to_chany_edge exCtxChan 3 4 1 = some (p, q) ∧
            draw_chany_to_chany_edge exCtxChan 4 3 0 = some (q, p)) :=
  ⟨(chan_edge_bidir_symmetric exCtxChan 0 2 0 2 (by decide) (by decide)).1
      (by decide) (by decide) (by decide),
   (chan_edge_bidir_symmetric exCtxChan 3 4 0 1 (by decide) (by decide)).2
      (by decide) (by decide) (by decide)⟩

/-- Embedding of the traceback-walking loop of `drawroute` (draw.cpp
lines 1640-1679) as the list of `draw_partial_route` arguments it emits:
nodes accumulate into `acc`; a SINK closes the current sequence (the SINK
included) and, if the trace continues, the next entry starts a new
sequence; when the trace ends at a SINK the loop breaks and the final
`draw_partial_route` call receives the cleared (empty) vector.  Reaching
the end of the trace other than right after a SINK dereferences a null
`tptr` in the source, modelled as `none`. -/
def drawrouteLoop (typ : Nat → RRType) : List Nat → List Nat → Option (List (List Nat))
  | [], _acc => none
  | n :: rest, acc =>
      if typ n = RRType.SINK then
        match rest with
        | [] => some [acc ++ [n], []]
        | m :: rest2 =>
            match drawrouteLoop typ rest2 [m] with
            | some ls => some ((acc ++ [n]) :: ls)
            | none => none
      else drawrouteLoop typ rest (acc ++ [n])

/-- Embedding of one net's handling in `drawroute` (draw.cpp lines
1630-1680): a net with no trace emits nothing; otherwise the head node
starts the first sequence and the loop walks the rest of the trace. -/
def drawrouteSeqs (typ : Nat → RRType) : List Nat → Option (List (List Nat))
  | [] => some []
  | n :: rest => drawrouteLoop typ rest [n]

/-- No two consecutive trace entries are both SINKs. -/
def noConsecSinks (typ : Nat → RRType) : List Nat → Bool
  | [] => true
  | [_] => true
  | a :: b :: rest =>
      (!(decide (typ a = RRType.SINK) && decide (typ b = RRType.SINK))) &&
      noConsecSinks typ (b :: rest)

/-- Well-formedness of a router trace as consumed by `drawroute`: it does
not begin with a SINK and never has two consecutive SINKs (so every
branch restart begins at a non-SINK node). -/
def wfTrace (typ : Nat → RRType) (tr : List Nat) : Bool :=
  match tr with
  | [] => true
  | n :: _ => (!decide (typ n = RRType.SINK)) && noConsecSinks typ tr

theorem noConsecSinks_tail (typ : Nat → RRType) (a : Nat) (l : List Nat)
    (h : noConsecSinks typ (a :: l) = true) : noConsecSinks typ l = true := by
  cases l with
  | nil => rfl
  | cons b l' =>
      simp only [noConsecSinks, Bool.and_eq_true] at h
      exact h.2

theorem noConsecSinks_pair (typ : Nat → RRType) (a b : Nat) (l : List Nat)
    (h : noConsecSinks typ (a :: b :: l) = true) (ha : typ a = RRType.SINK) :
    typ b ≠ RRType.SINK := by
  intro hb
  simp only [noConsecSinks, Bool.and_eq_true] at h
  have h1 := h.1
  simp [ha, hb] at h1

theorem drawrouteLoop_spec (typ : Nat → RRType) :
    ∀ (fuel : Nat) (rest acc : List Nat) (l : List (List Nat)),
      rest.length ≤ fuel →
      (∀ x ∈ acc, typ x ≠ RRType.SINK) → acc ≠ [] →
      noConsecSinks typ rest = true →
      drawrouteLoop typ rest acc = some l →
      ∃ seqs : List (List Nat), l = seqs ++ [[]] ∧ seqs.join = acc ++ rest ∧
        seqs.length = rest.countP (fun n => decide (typ n = RRType.SINK)) ∧
        ∀ s ∈ seqs, ∃ u k, s = u ++ [k] ∧ typ k = RRType.SINK ∧
          ∀ x ∈ u, typ x ≠ RRType.SINK := by
  intro fuel
  induction fuel with
  | zero =>
      intro rest acc l hlen _ _ _ h
      cases rest with
      | nil => exact absurd h (by simp [drawrouteLoop])
      | cons n rest' => simp at hlen
  | succ f ihf =>
      intro rest acc l hlen hacc hne hcons h
      cases rest with
      | nil => exact absurd h (by simp [drawrouteLoop])
      | cons n rest' =>
          by_cases hsink : typ n = RRType.SINK
          · cases rest' with
            | nil =>
                rw [show drawrouteLoop typ [n] acc = some [acc ++ [n], []]
                      by simp [drawrouteLoop, hsink]] at h
                have hl : l = [acc ++ [n], []] := by
                  exact (Option.some.injEq _ _).mp h.symm
                refine ⟨[acc ++ [n]], by simp [hl], by simp, ?_, ?_⟩
                · simp [List.countP_cons, hsink]
                · intro s hs
                  rw [List.mem_singleton] at hs
                  exact ⟨acc, n, hs, hsink, hacc⟩
            | cons m rest2 =>
                rw [show drawrouteLoop typ (n :: m :: rest2) acc
                      = match drawrouteLoop typ rest2 [m] with
                        | some ls => some ((acc ++ [n]) :: ls)
                        | none => none
                      by simp [drawrouteLoop, hsink]] at h
                cases hrec : drawrouteLoop typ rest2 [m] with
                | none => rw [hrec] at h; exact absurd h (by simp)
                | some ls =>
                    rw [hrec] at h
                    have hl : l = (acc ++ [n]) :: ls := by
                      exact (Option.some.injEq _ _).mp h.symm
                    have hm : typ m ≠ RRType.SINK :=
                      noConsecSinks_pair typ n m rest2 hcons hsink
                    have hcons2 : noConsecSinks typ rest2 = true :=
                      noConsecSinks_tail typ m rest2
                        (noConsecSinks_tail typ n (m :: rest2) hcons)
                    obtain ⟨seqs', he, hj, hc, hp⟩ :=
                      ihf rest2 [m] ls (by simp at hlen; omega)
                        (by intro x hx; rw [List.mem_singleton] at hx; exact hx ▸ hm)
                        (by simp) hcons2 hrec
                    refine ⟨(acc ++ [n]) :: seqs', by simp [hl, he], ?_, ?_, ?_⟩
                    · simp [hj]
                    · simp [hc, List.countP_cons, hsink, hm]
                    · intro s hs
                      rcases List.mem_cons.mp hs with hs | hs
                      · exact ⟨acc, n, hs, hsink, hacc⟩
                      · exact hp s hs
          · have hacc' : ∀ x ∈ acc ++ [n], typ x ≠ RRType.SINK := by
              intro x hx
              rcases List.mem_append.mp hx with hx | hx
              · exact hacc x hx
              · rw [List.mem_singleton] at hx; exact hx ▸ hsink
            cases rest' with
            | nil => simp [drawrouteLoop, hsink] at h
            | cons n2 rest2 =>
                rw [show drawrouteLoop typ (n :: n2 :: rest2) acc
                      = drawrouteLoop typ (n2 :: rest2) (acc ++ [n])
                      by simp [drawrouteLoop, hsink]] at h
                obtain ⟨seqs, he, hj, hc, hp⟩ :=
                  ihf (n2 :: rest2) (acc ++ [n]) l (by simp at hlen; simp; omega) hacc'
                    (by simp) (noConsecSinks_tail typ n (n2 :: rest2) hcons) h
                refine ⟨seqs, he, by simp [hj], ?_, hp⟩
                simp [hc, List.countP_cons, hsink]

/-- Claim C6: for a well-formed routed trace containing `k` SINK
occurrences, the `drawroute` flattening emits exactly `k` node sequences
(followed by the final empty `draw_partial_route` call of the cleared
vector, which draws nothing): each sequence ends at its SINK (included),
contains no other SINK (so no two sequences share a SINK occurrence),
their concatenation is exactly the trace (each SINK starts a new sequence
at the next entry), and a net with no trace yields no sequences. -/
theorem drawroute_flatten_partition (typ : Nat → RRType) (tr : List Nat)
    (l : List (List Nat)) (hwf : wfTrace typ tr = true)
    (h : drawrouteSeqs typ tr = some l) :
    (tr = [] → l = []) ∧
    (tr ≠ [] → ∃ seqs : List (List Nat), l = seqs ++ [[]] ∧ seqs.join = tr ∧
      seqs.length = tr.countP (fun n => decide (typ n = RRType.SINK)) ∧
      ∀ s ∈ seqs, ∃ u k, s = u ++ [k] ∧ typ k = RRType.SINK ∧
        ∀ x ∈ u, typ x ≠ RRType.SINK) := by
  cases tr with
  | nil =>
      refine ⟨fun _ => ?_, fun hne => absurd rfl hne⟩
      have : some ([] : List (List Nat)) = some l := h
      exact ((Option.some.injEq _ _).mp this).symm
  | cons n rest =>
      refine ⟨fun hc => absurd hc (by simp), fun _ => ?_⟩
      simp only [wfTrace, Bool.and_eq_true, Bool.not_eq_true', decide_eq_false_iff_not]
        at hwf
      obtain ⟨hn, hcons⟩ := hwf
      obtain ⟨seqs, he, hj, hc, hp⟩ :=
        drawrouteLoop_spec typ rest.length rest [n] l (le_refl _)
          (by intro x hx; rw [List.mem_singleton] at hx; exact hx ▸ hn)
          (by simp) (noConsecSinks_tail typ n rest hcons) h
      refine ⟨seqs, he, by simp [hj], ?_, hp⟩
      simp [hc, List.countP_cons, hn]

/-- Witness for `drawroute_flatten_partition` on a concrete two-branch
trace: nodes 2 and 4 are SINKs, the trace [0,1,2,3,4] flattens into
[0,1,2] and [3,4] plus the final empty emission. -/
theorem drawroute_flatten_partition_witness :
    ((([0, 1, 2, 3, 4] : List Nat) = [] →
        ([[0, 1, 2], [3, 4], []] : List (List Nat)) = []) ∧
     (([0, 1, 2, 3, 4] : List Nat) ≠ [] →
        ∃ seqs : List (List Nat),
          ([[0, 1, 2], [3, 4], []] : List (List Nat)) = seqs ++ [[]] ∧
          seqs.join = [0, 1, 2, 3, 4] ∧
          seqs.length = ([0, 1, 2, 3, 4] : List Nat).countP
            (fun n => decide ((fun k => if k = 2 ∨ k = 4 then RRType.SINK
              else RRType.CHANX) n = RRType.SINK)) ∧
          ∀ s ∈ seqs, ∃ u k, s = u ++ [k] ∧
            (fun j => if j = 2 ∨ j = 4 then RRType.SINK else RRType.CHANX) k
              = RRType.SINK ∧
            ∀ x ∈ u, (fun j => if j = 2 ∨ j = 4 then RRType.SINK
              else RRType.CHANX) x ≠ RRType.SINK)) :=
  drawroute_flatten_partition
    (fun j => if j = 2 ∨ j = 4 then RRType.SINK else RRType.CHANX)
    [0, 1, 2, 3, 4] [[0, 1, 2], [3, 4], []] (by decide) (by decide)

/-- A route-tree node (`t_rt_node`): one RR node index plus the child
list (`u.child_list`, walked through `t_linked_rt_edge`). -/
inductive RTNode where
  | node (inode : Nat) (children : List RTNode)

/-- The RR node index wrapped by a route-tree node. -/
def RTNode.inode : RTNode → Nat
  | RTNode.node i _ => i

mutual

/-- Whether RR node index `t` occurs in the route tree. -/
def RTNode.containsNode : RTNode → Nat → Bool
  | RTNode.node i cs, t => (i == t) || RTList.containsNode cs t

/-- Whether RR node index `t` occurs in a list of route trees. -/
def RTList.containsNode : List RTNode → Nat → Bool
  | [], _ => false
  | c :: rest, t => RTNode.containsNode c t || RTList.containsNode rest t

end

mutual

/-- Whether the route tree has a parent-to-child edge from RR node `a` to
RR node `b`. -/
def RTNode.hasEdge : RTNode → Nat → Nat → Bool
  | RTNode.node i cs, a, b =>
      ((i == a) && (cs.map RTNode.inode).contains b) || RTList.hasEdge cs a b

/-- Whether some tree in the list has a parent-to-child edge `a → b`. -/
def RTList.hasEdge : List RTNode → Nat → Nat → Bool
  | [], _, _ => false
  | c :: rest, a, b => RTNode.hasEdge c a b || RTList.hasEdge rest a b

end

mutual

/-- Embedding of `trace_routed_connection_rr_nodes_recurr` (draw.cpp
lines 2946-2967): DFS for `sink`; on success the rr nodes from the sink
up to (and including) the current node are appended to the accumulating
vector `acc` (sink-to-source order), and the flag reports whether the
current node is on the path. -/
def trace_routed_connection_rr_nodes_recurr (sink : Nat) :
    RTNode → List Nat → Bool × List Nat
  | RTNode.node i cs, acc =>
      if i = sink then (true, acc ++ [sink])
      else trace_recurr_children sink cs i acc

/-- The child-list loop of `trace_routed_connection_rr_nodes_recurr`
(the `for` over `t_linked_rt_edge`): on a child's success, push the
current node's `inode` and return. -/
def trace_recurr_children (sink : Nat) :
    List RTNode → Nat → List Nat → Bool × List Nat
  | [], _, acc => (false, acc)
  | c :: rest, i, acc =>
      let r := trace_routed_connection_rr_nodes_recurr sink c acc
      if r.1 = true then (true, r.2 ++ [i])
      else trace_recurr_children sink rest i r.2

end

/-- Embedding of `trace_routed_connection_rr_nodes` (draw.cpp lines
2916-2941) on an already-built route tree: run the DFS from the root with
an empty vector and reverse the result into source-to-sink order. -/
def trace_routed_connection_rr_nodes (root : RTNode) (sink : Nat) :
    Bool × List Nat :=
  let r := trace_routed_connection_rr_nodes_recurr sink root []
  (r.1, r.2.reverse)

theorem RTList.hasEdge_of_mem (cs : List RTNode) (c : RTNode) (a b : Nat)
    (hc : c ∈ cs) (h : RTNode.hasEdge c a b = true) :
    RTList.hasEdge cs a b = true := by
  induction cs with
  | nil => exact absurd hc (List.not_mem_nil c)
  | cons d rest ih =>
      rcases List.mem_cons.mp hc with hd | hd
      · rw [← hd]
        simp [RTList.hasEdge, h]
      · simp [RTList.hasEdge, ih hd]

mutual

theorem trace_recurr_spec (sink : Nat) (t : RTNode) (acc : List Nat) :
    ((trace_routed_connection_rr_nodes_recurr sink t acc).1
        = RTNode.containsNode t sink) ∧
    ((trace_routed_connection_rr_nodes_recurr sink t acc).1 = false →
      (trace_routed_connection_rr_nodes_recurr sink t acc).2 = acc) ∧
    ((trace_routed_connection_rr_nodes_recurr sink t acc).1 = true →
      ∃ p : List Nat,
        (trace_routed_connection_rr_nodes_recurr sink t acc).2 = acc ++ p.reverse ∧
        p.head? = some t.inode ∧ p.getLast? = some sink ∧
        List.Chain' (fun a b => RTNode.hasEdge t a b = true) p) := by
  match t with
  | RTNode.node i cs =>
    by_cases hi : i = sink
    · subst hi
      refine ⟨?_, ?_, ?_⟩
      · simp [trace_routed_connection_rr_nodes_recurr, RTNode.containsNode]
      · intro hfalse
        simp [trace_routed_connection_rr_nodes_recurr] at hfalse
      · intro _
        refine ⟨[i], ?_, rfl, rfl, List.chain'_singleton i⟩
        simp [trace_routed_connection_rr_nodes_recurr, RTNode.inode]
    · have heq : trace_routed_connection_rr_nodes_recurr sink (RTNode.node i cs) acc
          = trace_recurr_children sink cs i acc := by
        simp [trace_routed_connection_rr_nodes_recurr, hi]
      have hcont : RTNode.containsNode (RTNode.node i cs) sink
          = RTList.containsNode cs sink := by
        simp [RTNode.containsNode, hi]
      obtain ⟨h1, h2, h3⟩ := trace_children_spec sink cs i acc
      exact ⟨by rw [heq, hcont]; exact h1, by rw [heq]; exact h2, by rw [heq]; exact h3⟩

theorem trace_children_spec (sink : Nat) (cs : List RTNode) (i : Nat) (acc : List Nat) :
    ((trace_recurr_children sink cs i acc).1 = RTList.containsNode cs sink) ∧
    ((trace_recurr_children sink cs i acc).1 = false →
      (trace_recurr_children sink cs i acc).2 = acc) ∧
    ((trace_recurr_children sink cs i acc).1 = true →
      ∃ p : List Nat,
        (trace_recurr_children sink cs i acc).2 = acc ++ p.reverse ∧
        p.head? = some i ∧ p.getLast? = some sink ∧
        List.Chain' (fun a b => RTNode.hasEdge (RTNode.node i cs) a b = true) p) := by
  match cs with
  | [] =>
    refine ⟨rfl, fun _ => rfl, fun h => ?_⟩
    simp [trace_recurr_children] at h
  | c :: rest =>
    obtain ⟨hc1, hc2, hc3⟩ := trace_recurr_spec sink c acc
    by_cases hr : (trace_routed_connection_rr_nodes_recurr sink c acc).1 = true
    · have heq : trace_recurr_children sink (c :: rest) i acc
          = (true, (trace_routed_connection_rr_nodes_recurr sink c acc).2 ++ [i]) := by
        simp [trace_recurr_children, hr]
      obtain ⟨pc, hpc2, hpch, hpcl, hpcch⟩ := hc3 hr
      have hcontc : RTNode.containsNode c sink = true := by rw [← hc1]; exact hr
      refine ⟨?_, ?_, ?_⟩
      · rw [heq]
        simp [RTList.containsNode, hcontc]
      · intro hfalse
        rw [heq] at hfalse
        simp at hfalse
      · intro _
        refine ⟨i :: pc, ?_, rfl, ?_, ?_⟩
        · rw [heq]
          simp [hpc2]
        · cases pc with
          | nil => simp at hpch
          | cons ph pt =>
              rw [List.getLast?_cons_cons]
              exact hpcl
        · rw [List.chain'_cons']
          constructor
          · intro b hb
            have hb' : pc.head? = some b := hb
            have hbc : b = c.inode := by
              rw [hpch] at hb'
              exact (Option.some_inj.mp hb').symm
            subst hbc
            show RTNode.hasEdge (RTNode.node i (c :: rest)) i c.inode = true
            simp [RTNode.hasEdge, List.contains_cons]
          · refine List.Chain'.imp ?_ hpcch
            intro a b hab
            show RTNode.hasEdge (RTNode.node i (c :: rest)) a b = true
            simp [RTNode.hasEdge]
            right
            have := RTList.hasEdge_of_mem (c :: rest) c a b
              (List.mem_cons_self c rest) hab
            simpa [RTList.hasEdge] using this
    · have hrf : (trace_routed_connection_rr_nodes_recurr sink c acc).1 = false :=
        Bool.eq_false_iff.mpr hr
      have hacc : (trace_routed_connection_rr_nodes_recurr sink c acc).2 = acc :=
        hc2 hrf
      have heq : trace_recurr_children sink (c :: rest) i acc
          = trace_recurr_children sink rest i acc := by
        rw [show trace_recurr_children sink (c :: rest) i acc
              = (let r := trace_routed_connection_rr_nodes_recurr sink c acc
                 if r.1 = true then (true, r.2 ++ [i])
                 else trace_recurr_children sink rest i r.2) from rfl]
        simp only [hrf, hacc]
        simp
      have hcontc : RTNode.containsNode c sink = false := by rw [← hc1]; exact hrf
      obtain ⟨g1, g2, g3⟩ := trace_children_spec sink rest i acc
      refine ⟨?_, ?_, ?_⟩
      · rw [heq, g1]
        simp [RTList.containsNode, hcontc]
      · intro hfalse
        rw [heq] at hfalse ⊢
        exact g2 hfalse
      · intro htrue
        rw [heq] at htrue ⊢
        obtain ⟨p, hp2, hph, hpl, hpch⟩ := g3 htrue
        refine ⟨p, hp2, hph, hpl, ?_⟩
        refine List.Chain'.imp ?_ hpch
        intro a b hab
        show RTNode.hasEdge (RTNode.node i (c :: rest)) a b = true
        have hab' : RTNode.hasEdge (RTNode.node i rest) a b = true := hab
        simp only [RTNode.hasEdge, Bool.or_eq_true, Bool.and_eq_true] at hab' ⊢
        rcases hab' with ⟨hia, hbmem⟩ | hrest
        · left
          refine ⟨hia, ?_⟩
          simp only [List.map_cons, List.contains_cons]
          simp only [Bool.or_eq_true]
          right
          exact hbmem
        · right
          simp only [RTList.hasEdge, Bool.or_eq_true]
          right
          exact hrest

end

/-- Claim C7: for a route tree rooted at source S, the DFS path finder
returns, when the target sink T is in the tree, `(true, p)` where `p` is
the ordered node list from S to T — first element `S = root.inode`, last
element `T`, and each consecutive pair a real parent-to-child edge of the
tree; when T is not in the tree it returns not-found `(false, [])`. -/
theorem find_path_dfs (root : RTNode) (sink : Nat) :
    (RTNode.containsNode root sink = true →
      ∃ p : List Nat, trace_routed_connection_rr_nodes root sink = (true, p) ∧
        p.head? = some root.inode ∧ p.getLast? = some sink ∧
        List.Chain' (fun a b => RTNode.hasEdge root a b = true) p) ∧
    (RTNode.containsNode root sink = false →
      trace_routed_connection_rr_nodes root sink = (false, [])) := by
  obtain ⟨h1, h2, h3⟩ := trace_recurr_spec sink root []
  constructor
  · intro hc
    have htrue : (trace_routed_connection_rr_nodes_recurr sink root []).1 = true := by
      rw [h1, hc]
    obtain ⟨p, hp2, hph, hpl, hpch⟩ := h3 htrue
    refine ⟨p, ?_, hph, hpl, hpch⟩
    simp [trace_routed_connection_rr_nodes, htrue, hp2]
  · intro hc
    have hfalse : (trace_routed_connection_rr_nodes_recurr sink root []).1 = false := by
      rw [h1, hc]
    have hacc := h2 hfalse
    simp [trace_routed_connection_rr_nodes, hfalse, hacc]

/-- Witness for `find_path_dfs` on a concrete route tree
0 → {1 → {2}, 3}: searching sink 2 yields the path [0, 1, 2], and
searching the absent sink 9 yields not-found. -/
theorem find_path_dfs_witness :
    (∃ p : List Nat,
        trace_routed_connection_rr_nodes
          (RTNode.node 0 [RTNode.node 1 [RTNode.node 2 []], RTNode.node 3 []]) 2
          = (true, p) ∧
        p.head? = some (RTNode.node 0
          [RTNode.node 1 [RTNode.node 2 []], RTNode.node 3 []]).inode ∧
        p.getLast? = some 2 ∧
        List.Chain' (fun a b => RTNode.hasEdge
          (RTNode.node 0 [RTNode.node 1 [RTNode.node 2 []], RTNode.node 3 []])
          a b = true) p) ∧
    trace_routed_connection_rr_nodes
        (RTNode.node 0 [RTNode.node 1 [RTNode.node 2 []], RTNode.node 3 []]) 9
        = (false, []) :=
  ⟨(find_path_dfs (RTNode.node 0 [RTNode.node 1 [RTNode.node 2 []], RTNode.node 3 []]) 2).1
      (by decide),
   (find_path_dfs (RTNode.node 0 [RTNode.node 1 [RTNode.node 2 []], RTNode.node 3 []]) 9).2
      (by decide)⟩

end VprDraw
